import Mathlib

/-!
Verification of the cache-and-lock coordination core of the image-resizer
repository: the persist key/value layer (setage of a mongo `images`
collection), the polling distributed lock built on it, the
generateVersion / processVersion orchestration of image.js, and the
version-key derivation.

The store is modelled as a list of `(key, value)` documents, values as the
JS values the code actually writes (strings from `set`/JSON, numbers from
`setLock`).  Asynchronous steps that depend on the outside world (the
results of `get` reads during polling, the S3 fetch, the transform, the
upload) are passed in as explicit outcome parameters; each function then
returns its settled result together with the list of effects it performed,
in order.
-/

namespace ImageResizer

/-- A value stored in the `images` collection: `set` writes JSON strings,
`setLock` writes numeric expiry timestamps, so a stored value is either a
string or a number. -/
inductive JsVal
  | str (s : String)
  | num (n : Nat)
deriving DecidableEq

/-- The mongo `images` collection: a list of `{key, value}` documents.
Duplicate keys are representable because `insert` appends a document
unconditionally (the collection has no unique index on `key`). -/
abbrev Store := List (String × JsVal)

/-- `findOne({key: k})`: the first document whose `key` field equals `k`,
or none. -/
def findOne (s : Store) (k : String) : Option JsVal :=
  (s.find? (fun r => r.1 == k)).map (fun r => r.2)

/-- `insert({key: k, value: v})`: appends a new document. -/
def insertRow (s : Store) (k : String) (v : JsVal) : Store :=
  s ++ [(k, v)]

/-- Number of documents carrying a given key. -/
def countKey (s : Store) (k : String) : Nat :=
  (s.filter (fun r => r.1 == k)).length

/-- The value `setnx` resolves with: the Boolean `true` when `findOne`
found an existing document, otherwise `result[0]`, the freshly inserted
document. -/
inductive SetnxRes
  | trueVal
  | insertedRow (k : String) (v : JsVal)
deriving DecidableEq

/-- `setnx(key, value)` from persist: `findOne` on the key; when a document
already exists, resolve `true` and leave the store untouched; otherwise
`insert {key, value}` and resolve the inserted document.  This is the
sequential (interference-free) run of the callback chain; the two separate
store commands it issues are exposed as `setnxFind` and `setnxInsertStep`
below for the interleaving analysis. -/
def setnx (s : Store) (k : String) (v : JsVal) : SetnxRes × Store :=
  match findOne s k with
  | some _ => (.trueVal, s)
  | none => (.insertedRow k v, insertRow s k v)

/-- First store command issued by `setnx`: the `findOne` existence check. -/
def setnxFind (s : Store) (k : String) : Bool :=
  (findOne s k).isSome

/-- Second store command issued by `setnx`: the `insert`, run only when this
caller's earlier `findOne` reported the key absent. -/
def setnxInsertStep (s : Store) (k : String) (v : JsVal) (found : Bool) : Store :=
  if found then s else insertRow s k v

/-- One of the two concurrent `setnx` callers in the race analysis. -/
inductive Caller
  | A
  | B
deriving DecidableEq

/-- Joint state of two in-flight `setnx(k, vA)` / `setnx(k, vB)` calls:
the store, what each caller's `findOne` reported (none while the read has
not yet happened), and whether each caller ran its `insert`. -/
structure TwoSetnx where
  store : Store
  foundA : Option Bool := none
  foundB : Option Bool := none
  insertedA : Bool := false
  insertedB : Bool := false

/-- A micro-operation of one of the two concurrent `setnx` calls: its
`findOne` read or its conditional `insert` write. -/
inductive MicroOp
  | find (c : Caller)
  | ins (c : Caller)

/-- Execute one micro-operation against the joint state, exactly as the
`setnx` callback chain does: the read records whether a document exists
now; the write inserts only if that caller's own earlier read reported
absence. -/
def stepOp (k : String) (vA vB : JsVal) (st : TwoSetnx) : MicroOp → TwoSetnx
  | .find .A => { st with foundA := some (setnxFind st.store k) }
  | .find .B => { st with foundB := some (setnxFind st.store k) }
  | .ins .A =>
    match st.foundA with
    | some false => { st with store := insertRow st.store k vA, insertedA := true }
    | _ => st
  | .ins .B =>
    match st.foundB with
    | some false => { st with store := insertRow st.store k vB, insertedB := true }
    | _ => st

/-- Run a schedule (interleaving) of micro-operations of the two calls. -/
def runOps (k : String) (vA vB : JsVal) : List MicroOp → TwoSetnx → TwoSetnx
  | [], st => st
  | op :: rest, st => runOps k vA vB rest (stepOp k vA vB st op)

/-- `setLock(key)` from persist: `timeout = Date.now() + waitTimeout`,
stored as the lock value through `setnx`. -/
def setLock (s : Store) (now waitTimeout : Nat) (k : String) : SetnxRes × Store :=
  setnx s k (.num (now + waitTimeout))

/-- JS truthiness of the value `get` resolves with: `null`, the empty
string and the number `0` are falsy; every other stored value is truthy. -/
def isFalsy : Option JsVal → Bool
  | none => true
  | some (.str s) => s == ""
  | some (.num n) => n == 0

/-- `parseInt(result, 10)`: a number parses to itself; a string parses its
leading decimal digits; `none` stands for `NaN` (no leading digits). -/
def parseIntVal : JsVal → Option Nat
  | .num n => some n
  | .str s =>
    let digits := s.data.takeWhile (fun c => c.isDigit)
    if digits.isEmpty then none
    else some ((String.mk digits).toNat?.getD 0)

/-- The initial expiry test `parseInt(result, 10) < Date.now()`; a `NaN`
comparison is false in JS. -/
def expiredAt (v : JsVal) (now : Nat) : Bool :=
  match parseIntVal v with
  | some n => n < now
  | none => false

/-- Outcome of a `get` read as seen by a callback: a rejection, or a
resolution with the stored value (`none` when the key is absent). -/
inductive ReadRes
  | err
  | ok (v : Option JsVal)
deriving DecidableEq

/-- One firing of the `setInterval` callback of `lock`: the re-read's
settled result, and the wall-clock time at which the callback's
`Date.now() > expiration` test runs. -/
structure Tick where
  time : Nat
  read : ReadRes
deriving DecidableEq

/-- How the polling loop of `lock` exits. -/
inductive PollExit
  | lockError
  | lockAbsent
  | lockTimeout
deriving DecidableEq

/-- The polling loop of `lock`, driven by the sequence of tick outcomes:
a read rejection exits with `lock error`; a falsy read value exits
resolving `lock absent`; a truthy value past the deadline exits with
`lock timeout`; otherwise the loop keeps polling.  The Bool of the result
records whether the exiting branch ran `clearInterval` before settling,
transcribed branch by branch from the source; `none` means the loop has
not exited within the given ticks. -/
def poll (expiration : Nat) : List Tick → Option (PollExit × Bool)
  | [] => none
  | t :: rest =>
    match t.read with
    | .err => some (.lockError, true)
    | .ok v =>
      if isFalsy v then some (.lockAbsent, true)
      else if expiration < t.time then some (.lockTimeout, true)
      else poll expiration rest

/-- A tick on which the loop keeps polling: the re-read resolved a truthy
(present, nonzero, non-empty) value and the deadline had not yet passed at
the check. -/
def continuesTick (expiration : Nat) (u : Tick) : Prop :=
  ∃ w, u.read = ReadRes.ok (some w) ∧ isFalsy (some w) = false ∧ u.time ≤ expiration

/-- The settled result of `lock(key)`. -/
inductive LockResult
  | readErr
  | noLock
  | lockExpired
  | pollExit (e : PollExit)
  | stillPolling
deriving DecidableEq

/-- `lock(key)` from persist: the initial read rejects, or resolves `null`
(reject `no lock`), or resolves a value already expired at `Date.now()`
(reject `lock expired`); otherwise `expiration = Date.now() + waitTimeout`
is captured once and the polling loop runs with that fixed deadline. -/
def lock (now0 waitTimeout : Nat) (r0 : ReadRes) (ticks : List Tick) : LockResult :=
  match r0 with
  | .err => .readErr
  | .ok none => .noLock
  | .ok (some v) =>
    if expiredAt v now0 then .lockExpired
    else
      match poll (now0 + waitTimeout) ticks with
      | some (e, _) => .pollExit e
      | none => .stillPolling

/-- Outcome of the S3 source fetch in `processVersion`. -/
inductive FetchRes
  | err
  | ok (statusCode : Nat)
deriving DecidableEq

/-- Outcome of the `manipulate` transform step. -/
inductive ManipRes
  | err
  | ok
deriving DecidableEq

/-- Outcome of the S3 upload: a rejection, or a resolution whose value is
truthy or falsy (the code tests `!res`). -/
inductive UploadRes
  | err
  | ok (truthy : Bool)
deriving DecidableEq

/-- An observable effect performed by the orchestration, in order. -/
inductive Event
  | setLockResolved (r : SetnxRes)
  | fetchSource
  | delLock
  | transform
  | upload
  | saveVersion
deriving DecidableEq

/-- The settled result of `processVersion`'s deferred. -/
inductive PvResult
  | resolvedImg
  | rejectedErr
  | pending
deriving DecidableEq

/-- `processVersion` from image.js as a promise chain:
`s3.getFile(path).catch(reject).finally(del lockKey).then(statusCode
check; manipulate).then(upload).done(save / reject)`.
On fetch rejection the catch rejects the deferred and the finally still
deletes the lock; the following then-handler reads `statusCode` off
`undefined` and throws, so neither transform nor upload runs.  On fetch
resolution the finally deletes the lock as soon as the fetch settles; the
non-200 test constructs `new Error(res.statusCode)` but never throws or
returns it, so the chain proceeds to transform and upload regardless of
the status.  A transform or upload rejection reaches `done` with no
rejection handler, so the deferred never settles. -/
def processVersion (fetch : FetchRes) (manip : ManipRes) (upl : UploadRes) :
    PvResult × List Event :=
  match fetch with
  | .err => (.rejectedErr, [.fetchSource, .delLock])
  | .ok status =>
    let _errorValue := status != 200
    match manip with
    | .err => (.pending, [.fetchSource, .delLock, .transform])
    | .ok =>
      match upl with
      | .err => (.pending, [.fetchSource, .delLock, .transform, .upload])
      | .ok truthy =>
        if truthy then
          (.resolvedImg, [.fetchSource, .delLock, .transform, .upload, .saveVersion])
        else
          (.rejectedErr, [.fetchSource, .delLock, .transform, .upload])

/-- The settled result of `generateVersion`'s deferred. -/
inductive GvResult
  | resolvedBool (b : Bool)
  | resolvedVal (v : JsVal)
  | resolvedImg
  | rejectedErr
  | pending
deriving DecidableEq

/-- Lift a `processVersion` result to the shared deferred of
`generateVersion` (the same deferred object is passed through). -/
def liftPv : PvResult → GvResult
  | .resolvedImg => .resolvedImg
  | .rejectedErr => .rejectedErr
  | .pending => .pending

/-- `generateVersion` from image.js:
`persist.lock(lockKey).then(findVersion(deferred)).catch(setLock then
processVersion)`.  When `lock` resolves (`lock absent`), `findVersion`
reads the version key and resolves the deferred with `res !== null` (the
second argument `_this` of `deferred.resolve` is discarded by Q); when
`lock` rejects for any reason, `setLock` runs and its `done` callback
invokes `processVersion` without inspecting the value `setLock` resolved
with.  `storeAtSetLock` is the store state the `setLock` read observes;
`versionRead` is the outcome of `findVersion`'s `get`. -/
def generateVersion (lockRes : LockResult) (versionRead : ReadRes)
    (storeAtSetLock : Store) (now waitTimeout : Nat) (lockKey : String)
    (fetch : FetchRes) (manip : ManipRes) (upl : UploadRes) : GvResult × List Event :=
  match lockRes with
  | .pollExit .lockAbsent =>
    match versionRead with
    | .err => (.rejectedErr, [])
    | .ok v => (.resolvedBool v.isSome, [])
  | .stillPolling => (.pending, [])
  | _ =>
    let r := setLock storeAtSetLock now waitTimeout lockKey
    let pv := processVersion fetch manip upl
    (liftPv pv.1, Event.setLockResolved r.1 :: pv.2)

/-- The request's transform options hash; a missing field models a key the
hash does not own (`hasOwnProperty` false). -/
structure Options where
  action : Option String := none
  width : Option Nat := none
  height : Option Nat := none
  cropX : Option Nat := none
  cropY : Option Nat := none
deriving DecidableEq

/-- JS `options.action[0]` concatenated into a string: the first character
of the action, or the text "undefined" when the action is empty (indexing
past the end yields `undefined`, and string concatenation spells it out). -/
def actionFirstChar (a : String) : String :=
  match a.data with
  | [] => "undefined"
  | c :: _ => String.singleton c

/-- One optional numeric field of the options suffix: its prefix followed
by the number when the field is present, empty otherwise. -/
def optPart (pre : String) : Option Nat → String
  | none => ""
  | some n => pre ++ toString n

/-- `_optionsString` from image.js: empty for a metadata-only (JSON)
request or when no action is requested; otherwise `_a` plus the action's
first character, then the width, height, cropX and cropY fields in that
fixed order, each present only when specified. -/
def optionsString (json : Bool) (o : Options) : String :=
  if json then ""
  else
    match o.action with
    | none => ""
    | some a =>
      "_a" ++ actionFirstChar a ++ optPart "_w" o.width ++ optPart "_h" o.height ++
        optPart "_cx" o.cropX ++ optPart "_cy" o.cropY

/-- `_key` from image.js: `namespace:envChar:uuid`. -/
def key (ns env uuid : String) : String :=
  ns ++ ":" ++ env ++ ":" ++ uuid

/-- `this.uuid = md5('' + dir + file)`: the md5 digest is kept as an
abstract hash parameter; the key structure does not depend on its
definition, only on it being a function of `dir` and `file`. -/
def imgUuid (contentHash : String → String) (dir file : String) : String :=
  contentHash ("" ++ dir ++ file)

/-- `_versionKey` from image.js: the base key when the options own no
`action`, otherwise the base key followed by `_optionsString()`. -/
def versionKey (ns env uuid : String) (json : Bool) (o : Options) : String :=
  match o.action with
  | none => key ns env uuid
  | some _ => key ns env uuid ++ optionsString json o

/-- C2: the source's `setnx` issues `findOne` and `insert` as two separate
store commands, so two concurrent calls on the same absent key can both
observe absence and both insert: under the interleaving readA, readB,
insertA, insertB from the empty store, both callers perform the insert and
the key ends up with two documents — the claimed single atomic
check-and-insert (exactly one inserter) does not hold. -/
theorem setnx_check_then_insert_race :
    (runOps "k" (.num 1) (.num 2) [.find .A, .find .B, .ins .A, .ins .B]
        { store := [] }).insertedA = true ∧
    (runOps "k" (.num 1) (.num 2) [.find .A, .find .B, .ins .A, .ins .B]
        { store := [] }).insertedB = true ∧
    countKey (runOps "k" (.num 1) (.num 2) [.find .A, .find .B, .ins .A, .ins .B]
        { store := [] }).store "k" = 2 := by
  refine ⟨rfl, rfl, rfl⟩

/-- C3 counterexample: on an absent key `setnx` performs the insert yet
resolves with the inserted document, not with the Boolean `true`; it
resolves `true` precisely when the key was already present.  The claimed
indicator convention (true exactly when this call inserted) is therefore
false. -/
theorem setnx_indicator_cx :
    (setnx [] "k" (.str "v")).1 = SetnxRes.insertedRow "k" (.str "v") ∧
    SetnxRes.insertedRow "k" (.str "v") ≠ SetnxRes.trueVal ∧
    (setnx [("k", JsVal.str "old")] "k" (.str "v")).1 = SetnxRes.trueVal := by
  refine ⟨rfl, by decide, rfl⟩

/-- C3 amended: `setnx` resolves with the Boolean `true` when the key was
already present, leaving the store (hence the previously stored value)
unchanged, and resolves with the freshly inserted document when the key
was absent and this call performed the insert. -/
theorem setnx_existing_true_inserted_row (s : Store) (k : String) (v : JsVal) :
    ((findOne s k).isSome → setnx s k v = (SetnxRes.trueVal, s)) ∧
    (findOne s k = none →
      setnx s k v = (SetnxRes.insertedRow k v, insertRow s k v)) := by
  constructor
  · intro h
    unfold setnx
    cases hf : findOne s k with
    | none => rw [hf] at h; simp at h
    | some w => rfl
  · intro h
    unfold setnx
    rw [h]

/-- Witness for the C3 amended theorem at concrete inputs: a present key
resolves `true` with the store untouched; an absent key resolves the
inserted document. -/
theorem setnx_existing_true_inserted_row_witness :
    setnx [("k", JsVal.str "old")] "k" (.str "v") =
      (SetnxRes.trueVal, [("k", JsVal.str "old")]) ∧
    setnx [] "k" (.str "v") =
      (SetnxRes.insertedRow "k" (.str "v"), [("k", JsVal.str "v")]) :=
  ⟨(setnx_existing_true_inserted_row [("k", JsVal.str "old")] "k" (.str "v")).1
      (by decide),
   (setnx_existing_true_inserted_row [] "k" (.str "v")).2 (by decide)⟩

/-- C5: a non-success fetch status does not reject — `new
Error(res.statusCode)` is constructed but never thrown — so with a 404
fetch the chain still runs the transform and the upload and resolves the
deferred with the artifact, contradicting the claim that a non-200 fetch
rejects and never proceeds. -/
theorem processVersion_non200_builds_and_resolves :
    processVersion (.ok 404) .ok (.ok true) =
      (.resolvedImg, [.fetchSource, .delLock, .transform, .upload, .saveVersion]) := by
  rfl

/-- C6: on every outcome of the build attempt — fetch rejection, non-200
or 200 fetch, transform failure, upload rejection, falsy upload result or
success — the effect trace of `processVersion` contains the deletion of
the lock key, because the `finally` handler runs as soon as the fetch
settles, on both the resolution and the rejection path. -/
theorem processVersion_always_deletes_lock (fetch : FetchRes) (manip : ManipRes)
    (upl : UploadRes) : Event.delLock ∈ (processVersion fetch manip upl).2 := by
  cases fetch with
  | err => simp [processVersion]
  | ok status =>
    cases manip with
    | err => simp [processVersion]
    | ok =>
      cases upl with
      | err => simp [processVersion]
      | ok truthy => cases truthy <;> simp [processVersion]

/-- C7: in every `processVersion` execution the effect trace begins with
the source fetch immediately followed by the lock-key deletion, and no
further deletion occurs later: the `finally` that deletes the lock is
attached directly to the fetch, so the deletion happens as soon as the
fetch settles and strictly before any transform or upload effect. -/
theorem processVersion_deletes_lock_before_build (fetch : FetchRes)
    (manip : ManipRes) (upl : UploadRes) :
    ∃ rest, (processVersion fetch manip upl).2 =
        Event.fetchSource :: Event.delLock :: rest ∧
      rest.count Event.delLock = 0 := by
  cases fetch with
  | err => exact ⟨[], rfl, rfl⟩
  | ok status =>
    cases manip with
    | err => exact ⟨[.transform], rfl, rfl⟩
    | ok =>
      cases upl with
      | err => exact ⟨[.transform, .upload], rfl, rfl⟩
      | ok truthy =>
        cases truthy with
        | false => exact ⟨[.transform, .upload], rfl, rfl⟩
        | true => exact ⟨[.transform, .upload, .saveVersion], rfl, rfl⟩

/-- Ticks on which the loop keeps polling do not affect the loop's exit:
the loop simply recurses past them. -/
theorem poll_skips_continue_ticks (expiration : Nat) (pre l : List Tick)
    (h : ∀ u ∈ pre, continuesTick expiration u) :
    poll expiration (pre ++ l) = poll expiration l := by
  induction pre with
  | nil => rfl
  | cons t rest ih =>
    obtain ⟨w, hr, hf, hle⟩ := h t (List.mem_cons_self t rest)
    have hrest : ∀ u ∈ rest, continuesTick expiration u :=
      fun u hu => h u (List.mem_cons_of_mem t hu)
    rw [List.cons_append]
    simp only [poll, hr, hf]
    rw [if_neg (Nat.not_lt.mpr hle)]
    exact ih hrest

/-- C1: after `lock()` rejects, `setLock` on a store that already holds the
lock key resolves with the existing-indicator (the Boolean `true`), yet
`generateVersion` invokes `processVersion` unconditionally: the effect
trace records the `setLock` resolution with the existing-indicator
followed by the source fetch, the transform and the upload, and the call
resolves with the built artifact instead of falling back to waiting — the
claimed single-flight fallback is absent from the code. -/
theorem generateVersion_builds_despite_existing_lock :
    (setLock [("lk", JsVal.num 5000)] 1000 2000 "lk").1 = SetnxRes.trueVal ∧
    (generateVersion .noLock (.ok none) [("lk", JsVal.num 5000)] 1000 2000 "lk"
        (.ok 200) .ok (.ok true)).1 = GvResult.resolvedImg ∧
    (generateVersion .noLock (.ok none) [("lk", JsVal.num 5000)] 1000 2000 "lk"
        (.ok 200) .ok (.ok true)).2 =
      [Event.setLockResolved SetnxRes.trueVal, Event.fetchSource, Event.delLock,
        Event.transform, Event.upload, Event.saveVersion] := by
  refine ⟨rfl, rfl, rfl⟩

/-- C4 counterexample: with `lock` resolved (`lock absent`) and the version
document present with content "version-metadata", `generateVersion`
resolves with the Boolean presence indicator `true`, which is not a
resolution carrying the stored record's content. -/
theorem generateVersion_resolves_presence_not_content_cx :
    (generateVersion (.pollExit .lockAbsent) (.ok (some (.str "version-metadata")))
        [] 0 0 "lk" .err .err .err).1 = GvResult.resolvedBool true ∧
    GvResult.resolvedBool true ≠ GvResult.resolvedVal (.str "version-metadata") := by
  refine ⟨rfl, by decide⟩

/-- C4 amended: whenever `lock(lockKey)` resolves with `lock absent` and the
version record is present in the store, `generateVersion` resolves with
`true` — `findVersion`'s presence indicator `res !== null` — not with the
stored record's content (Q discards `deferred.resolve`'s second
argument). -/
theorem generateVersion_lockAbsent_resolves_presence (versionVal : JsVal)
    (st : Store) (now wt : Nat) (lk : String) (f : FetchRes) (m : ManipRes)
    (u : UploadRes) :
    (generateVersion (.pollExit .lockAbsent) (.ok (some versionVal)) st now wt lk
        f m u).1 = GvResult.resolvedBool true := rfl

/-- C8 counterexample: a re-read that finds the key present but with the
stored number 0 is falsy under the code's `!result` test, so even after
the wait deadline has passed the loop resolves `lock absent` instead of
rejecting `lock timeout`: entering the loop at time 100 with deadline
100 + 50 = 150, a tick at time 200 reading the present value 0 exits with
`lockAbsent`. -/
theorem lock_present_zero_after_deadline_cx :
    lock 100 50 (.ok (some (.num 200))) [⟨200, .ok (some (.num 0))⟩] =
      LockResult.pollExit PollExit.lockAbsent ∧
    LockResult.pollExit PollExit.lockAbsent ≠
      LockResult.pollExit PollExit.lockTimeout := by
  refine ⟨rfl, by decide⟩

/-- C8 amended: when the initial read finds the key present with a value
not yet expired, `lock` enters the polling loop whose deadline is
`now + waitTimeout`, captured once at loop start and never refreshed (the
whole run equals `poll` with that one fixed deadline); after any ticks on
which the loop continues, a re-read resolving a falsy value — absent, the
number 0 or the empty string — exits resolving `lockAbsent`, and a re-read
resolving a truthy (present, nonzero, non-empty) value at a check time
past the deadline exits rejecting `lockTimeout`. -/
theorem lock_fixed_deadline_poll_exits (now0 wt : Nat) (v : JsVal)
    (ticks : List Tick) (hnotexp : expiredAt v now0 = false) :
    (lock now0 wt (.ok (some v)) ticks =
      match poll (now0 + wt) ticks with
      | some (e, _) => LockResult.pollExit e
      | none => LockResult.stillPolling) ∧
    (∀ expiration pre rest time w, isFalsy w = true →
      (∀ u ∈ pre, continuesTick expiration u) →
      poll expiration (pre ++ (⟨time, .ok w⟩ : Tick) :: rest) =
        some (.lockAbsent, true)) ∧
    (∀ expiration pre rest time w, isFalsy (some w) = false →
      expiration < time →
      (∀ u ∈ pre, continuesTick expiration u) →
      poll expiration (pre ++ (⟨time, .ok (some w)⟩ : Tick) :: rest) =
        some (.lockTimeout, true)) := by
  refine ⟨?_, ?_, ?_⟩
  · simp only [lock]
    rw [hnotexp]
    simp
  · intro expiration pre rest time w hf hpre
    rw [poll_skips_continue_ticks expiration pre _ hpre]
    simp [poll, hf]
  · intro expiration pre rest time w hf hlt hpre
    rw [poll_skips_continue_ticks expiration pre _ hpre]
    simp [poll, hf, hlt]

/-- Witness for the C8 amended theorem at concrete inputs: entering the
loop at time 100 with waitTimeout 50 and no exit tick leaves the lock
still polling; with deadline 150, a continue tick at time 120 followed by
an absent re-read at time 160 resolves `lockAbsent`, while a truthy
re-read at time 160 rejects `lockTimeout`. -/
theorem lock_fixed_deadline_poll_exits_witness :
    lock 100 50 (.ok (some (.num 200))) [] = LockResult.stillPolling ∧
    poll 150 [⟨120, .ok (some (.num 999))⟩, ⟨160, .ok none⟩] =
      some (.lockAbsent, true) ∧
    poll 150 [⟨120, .ok (some (.num 999))⟩, ⟨160, .ok (some (.num 999))⟩] =
      some (.lockTimeout, true) := by
  refine ⟨?_, ?_, ?_⟩
  · exact (lock_fixed_deadline_poll_exits 100 50 (.num 200) [] (by decide)).1
  · exact (lock_fixed_deadline_poll_exits 100 50 (.num 200) [] (by decide)).2.1
      150 [⟨120, .ok (some (.num 999))⟩] [] 160 none rfl
      (by intro u hu
          rw [List.mem_singleton] at hu
          subst hu
          exact ⟨.num 999, rfl, rfl, by decide⟩)
  · exact (lock_fixed_deadline_poll_exits 100 50 (.num 200) [] (by decide)).2.2
      150 [⟨120, .ok (some (.num 999))⟩] [] 160 (.num 999) rfl (by decide)
      (by intro u hu
          rw [List.mem_singleton] at hu
          subst hu
          exact ⟨.num 999, rfl, rfl, by decide⟩)

/-- C9: whenever the polling loop exits — read error, absent key, or
deadline passed — the exiting branch has run `clearInterval` before
settling the deferred, so a settled exit never leaves the repeating timer
firing (the flag in `poll`'s result transcribes the `clearInterval` call
of each exit branch of the source). -/
theorem poll_clears_timer_on_exit (expiration : Nat) (ticks : List Tick) :
    ((poll expiration ticks).all fun p => p.2) = true := by
  induction ticks with
  | nil => rfl
  | cons t rest ih =>
    cases hr : t.read with
    | err => simp [poll, hr]
    | ok v =>
      by_cases hf : isFalsy v = true
      · simp [poll, hr, hf]
      · by_cases ht : expiration < t.time
        · simp [poll, hr, hf, ht]
        · simpa [poll, hr, hf, ht] using ih

/-- C10: version-key derivation is the pure function `versionKey` of the
namespace, environment character, directory, filename (through the content
hash) and options: with no action the version key is the base key; a
metadata-only (JSON) request also yields the bare base key; otherwise the
suffix is `_a` plus the action's first character followed by the width,
height, cropX and cropY fields in that fixed order, each present only when
specified; in particular action "resize" with width 100 and height 50
yields the suffix `_ar_w100_h50`. -/
theorem versionKey_suffix_shape (contentHash : String → String)
    (ns env dir file a : String) (json : Bool) (w hgt cx cy : Option Nat) :
    versionKey ns env (imgUuid contentHash dir file) json
        { action := none, width := w, height := hgt, cropX := cx, cropY := cy } =
      key ns env (imgUuid contentHash dir file) ∧
    versionKey ns env (imgUuid contentHash dir file) true
        { action := some a, width := w, height := hgt, cropX := cx, cropY := cy } =
      key ns env (imgUuid contentHash dir file) ∧
    versionKey ns env (imgUuid contentHash dir file) false
        { action := some a, width := w, height := hgt, cropX := cx, cropY := cy } =
      key ns env (imgUuid contentHash dir file) ++
        ("_a" ++ actionFirstChar a ++ optPart "_w" w ++ optPart "_h" hgt ++
          optPart "_cx" cx ++ optPart "_cy" cy) ∧
    versionKey ns env (imgUuid contentHash dir file) false
        { action := some "resize", width := some 100, height := some 50 } =
      key ns env (imgUuid contentHash dir file) ++ "_ar_w100_h50" := by
  refine ⟨rfl, ?_, rfl, ?_⟩
  · simp [versionKey, optionsString]
  · have h : optionsString false
        { action := some "resize", width := some 100, height := some 50,
          cropX := none, cropY := none } = "_ar_w100_h50" := by decide
    simp [versionKey, h]

end ImageResizer
